import Mathlib

/-!
Shallow embedding of the string-command core of mt-redis
(src/t_string.c) and of the worker-thread launcher (src/q_thread.c).

Byte strings are lists of naturals; the keyspace is an association
list mutated only by the (single) writer thread, so commands are pure
state transformers producing a reply and a new server state.  Machine
long long arithmetic is modelled with Int together with the explicit
bounds LLONG_MIN and LLONG_MAX where the code checks them.
-/

namespace MtRedis

/-- A byte string (sds buffer content / command argument). -/
abbrev Bytes := List Nat

/-- LLONG_MAX for 64-bit long long. -/
def LLONG_MAX : Int := 2 ^ 63 - 1

/-- LLONG_MIN for 64-bit long long. -/
def LLONG_MIN : Int := -(2 ^ 63)

/-- The 512 MiB string size ceiling of checkStringLength. -/
def maxStringSize : Int := 512 * 1024 * 1024

/-- A redis object (robj).  OBJ_STRING values are either raw byte
buffers (raw/embstr encodings) or a compact integer encoding
(OBJ_ENCODING_INT); every other object type is collapsed into
nonString, which only ever meets the type checks. -/
inductive RObj : Type
  | str (b : Bytes)
  | intEnc (n : Int)
  | nonString
deriving DecidableEq, Repr

/-- o.type == OBJ_STRING. -/
def RObj.isString : RObj → Bool
  | .nonString => false
  | _ => true

/-- ll2string: decimal representation of a long long, as bytes. -/
def ll2stringBytes (n : Int) : Bytes :=
  (toString n).toList.map Char.toNat

/-- stringObjectLen: byte length of a string object (an int-encoded
object reports the length of its decimal representation). -/
def stringObjectLen : RObj → Nat
  | .str b => b.length
  | .intEnc n => (ll2stringBytes n).length
  | .nonString => 0

/-- The raw bytes of a string object, as produced by
dbUnshareStringValue (an int-encoded object is first converted to its
decimal representation). -/
def robjBytes : RObj → Bytes
  | .str b => b
  | .intEnc n => ll2stringBytes n
  | .nonString => []

/-- The keyspace dict: key to object, association list. -/
abbrev DB := List (Bytes × RObj)

/-- lookupKeyRead / lookupKeyWrite (no expiry logic is modelled at
lookup: the commands under study never race an expire). -/
def dbLookup (db : DB) (k : Bytes) : Option RObj :=
  (db.find? (fun p => p.1 = k)).map (fun p => p.2)

/-- setKey / dbAdd / dbOverwrite: bind k to v, replacing any previous
binding. -/
def dbSet : DB → Bytes → RObj → DB
  | [], k, v => [(k, v)]
  | (k0, v0) :: rest, k, v =>
      if k0 = k then (k, v) :: rest else (k0, v0) :: dbSet rest k v

/-- Full server state observed by the claims: keyspace, expiration
map, the global dirty counter and the stream of keyspace-event
notifications (event name and key). -/
structure ServerState : Type where
  db : DB
  expires : List (Bytes × Int)
  dirty : Nat
  notes : List (String × Bytes)
deriving DecidableEq, Repr

/-- A single reply sent back to the client.  A multi-bulk reply (as
emitted by MGET) is modelled as a list of these. -/
inductive Reply : Type
  | status (s : String)
  | nil
  | bulk (b : Bytes)
  | int (n : Int)
  | err (msg : String)
deriving DecidableEq, Repr

/-- shared.wrongtypeerr. -/
def wrongtypeerr : Reply :=
  .err "WRONGTYPE Operation against a key holding the wrong kind of value"

/-- The reply of the 512 MiB guard in checkStringLength. -/
def stringTooLongErr : Reply :=
  .err "string exceeds maximum allowed size (512MB)"

/-- checkStringLength: true means C_OK (size within the ceiling). -/
def checkStringLength (size : Int) : Bool :=
  !(size > maxStringSize)

/-- addReplyBulk on a string object. -/
def addReplyBulkObj : RObj → Reply
  | .str b => .bulk b
  | .intEnc n => .bulk (ll2stringBytes n)
  | .nonString => .bulk []

/-- setExpire: bind key k to the absolute expiration time t. -/
def setExpire : List (Bytes × Int) → Bytes → Int → List (Bytes × Int)
  | [], k, t => [(k, t)]
  | (k0, t0) :: rest, k, t =>
      if k0 = k then (k, t) :: rest else (k0, t0) :: setExpire rest k t

/-! ### SET family (setGenericCommand and its entry points) -/

/-- Tail of setGenericCommand after the expire argument has been
validated and converted to an absolute time: the NX/XX abort test,
then setKey, dirty++, setExpire and the keyspace notifications. -/
def setGenericFinish (st : ServerState) (nx xx : Bool) (key : Bytes)
    (val : RObj) (expireAt : Option Int) (okReply abortReply : Option Reply) :
    Reply × ServerState :=
  if (nx && (dbLookup st.db key).isSome) || (xx && (dbLookup st.db key).isNone)
  then (abortReply.getD .nil, st)
  else
    let st1 : ServerState :=
      { db := dbSet st.db key val
        expires :=
          match expireAt with
          | some t => setExpire st.expires key t
          | none => st.expires
        dirty := st.dirty + 1
        notes :=
          match expireAt with
          | some _ => st.notes ++ [("set", key), ("expire", key)]
          | none => st.notes ++ [("set", key)] }
    (okReply.getD (.status "OK"), st1)

/-- setGenericCommand.  The expire argument is taken already parsed by
getLongLongFromObjectOrReply (an unparsable argument never reaches the
body); unitSeconds selects UNIT_SECONDS over UNIT_MILLISECONDS; now is
mstime(). -/
def setGenericCommand (st : ServerState) (nx xx : Bool) (key : Bytes)
    (val : RObj) (expire : Option Int) (unitSeconds : Bool)
    (okReply abortReply : Option Reply) (cmdName : String) (now : Int) :
    Reply × ServerState :=
  match expire with
  | some ms0 =>
      if ms0 ≤ 0 then (.err ("invalid expire time in " ++ cmdName), st)
      else
        let ms := if unitSeconds then ms0 * 1000 else ms0
        setGenericFinish st nx xx key val (some (now + ms)) okReply abortReply
  | none => setGenericFinish st nx xx key val none okReply abortReply

/-- SET key value, without options (the option-parsing loop of
setCommand is wire plumbing; a plain SET reaches setGenericCommand
with no flags and no expire). -/
def setCommand (st : ServerState) (key val : Bytes) : Reply × ServerState :=
  setGenericCommand st false false key (.str val) none true none none "set" 0

/-! ### GET / MGET / GETRANGE -/

/-- getGenericCommand: lookupKeyReadOrReply with nullbulk, then the
OBJ_STRING type test. -/
def getGenericCommand (st : ServerState) (key : Bytes) : Reply :=
  match dbLookup st.db key with
  | none => .nil
  | some o => if o.isString then addReplyBulkObj o else wrongtypeerr

/-- mgetCommand: one reply per requested key; missing and wrong-typed
keys produce nullbulk. -/
def mgetCommand (st : ServerState) (keys : List Bytes) : List Reply :=
  keys.map (fun k =>
    match dbLookup st.db k with
    | none => .nil
    | some o => if o.isString then addReplyBulkObj o else .nil)

/-- The index arithmetic of getrangeCommand on a string of bytes s,
translated line by line (negative-pair early exit, negative-index
conversion, clamping, the start > end / empty-string test, then the
byte range start..end inclusive). -/
def getrangeBytes (s : Bytes) (start0 end0 : Int) : Bytes :=
  let len : Int := s.length
  if start0 < 0 ∧ end0 < 0 ∧ start0 > end0 then []
  else
    let start1 := if start0 < 0 then len + start0 else start0
    let end1 := if end0 < 0 then len + end0 else end0
    let start2 := if start1 < 0 then 0 else start1
    let end2 := if end1 < 0 then 0 else end1
    let end3 := if end2 ≥ len then len - 1 else end2
    if start2 > end3 ∨ s.length = 0 then []
    else (s.drop start2.toNat).take (end3 - start2 + 1).toNat

/-- getrangeCommand: emptybulk on a missing key, wrong-type error
otherwise when the object is not a string, else the byte range of the
(possibly int-encoded, hence ll2string-converted) value. -/
def getrangeCommand (st : ServerState) (key : Bytes) (start0 end0 : Int) :
    Reply :=
  match dbLookup st.db key with
  | none => .bulk []
  | some o =>
      if o.isString then .bulk (getrangeBytes (robjBytes o) start0 end0)
      else wrongtypeerr

/-! ### SETRANGE / APPEND -/

/-- sdsgrowzero: grow the buffer with zero bytes up to length n (a
no-op when it is already at least that long). -/
def sdsgrowzero (b : Bytes) (n : Nat) : Bytes :=
  b ++ List.replicate (n - b.length) 0

/-- memcpy(buf + offset, v, v.length) on a buffer of length at least
offset + v.length. -/
def memcpyAt (buf : Bytes) (offset : Nat) (v : Bytes) : Bytes :=
  buf.take offset ++ v ++ buf.drop (offset + v.length)

/-- setrangeCommand.  The duplicate/grow/memcpy/publish sequence on
the value buffer collapses to the construction of the new buffer; the
RCU publish makes it the value of the key. -/
def setrangeCommand (st : ServerState) (key : Bytes) (offset : Int)
    (value : Bytes) : Reply × ServerState :=
  if offset < 0 then (.err "offset is out of range", st)
  else
    match dbLookup st.db key with
    | none =>
        if value.length = 0 then (.int 0, st)
        else if !(checkStringLength (offset + value.length)) then
          (stringTooLongErr, st)
        else
          let base := List.replicate (offset.toNat + value.length) 0
          let nc :=
            memcpyAt (sdsgrowzero base (offset.toNat + value.length))
              offset.toNat value
          (.int nc.length,
           { st with
               db := dbSet st.db key (.str nc)
               dirty := st.dirty + 1
               notes := st.notes ++ [("setrange", key)] })
    | some o =>
        if !o.isString then (wrongtypeerr, st)
        else if value.length = 0 then (.int (stringObjectLen o), st)
        else if !(checkStringLength (offset + value.length)) then
          (stringTooLongErr, st)
        else
          let nc :=
            memcpyAt (sdsgrowzero (robjBytes o) (offset.toNat + value.length))
              offset.toNat value
          (.int nc.length,
           { st with
               db := dbSet st.db key (.str nc)
               dirty := st.dirty + 1
               notes := st.notes ++ [("setrange", key)] })

/-- appendCommand.  On a missing key dbAdd stores the argument value
directly, with no length check; on an existing string key the total
length is checked against the ceiling, then the sdscatlen result is
published. -/
def appendCommand (st : ServerState) (key value : Bytes) :
    Reply × ServerState :=
  match dbLookup st.db key with
  | none =>
      (.int value.length,
       { st with
           db := dbSet st.db key (.str value)
           dirty := st.dirty + 1
           notes := st.notes ++ [("append", key)] })
  | some o =>
      if !o.isString then (wrongtypeerr, st)
      else
        let totlen : Int := stringObjectLen o + value.length
        if !(checkStringLength totlen) then (stringTooLongErr, st)
        else
          let nc := robjBytes o ++ value
          (.int nc.length,
           { st with
               db := dbSet st.db key (.str nc)
               dirty := st.dirty + 1
               notes := st.notes ++ [("append", key)] })

/-! ### INCR / DECR family -/

/-- Modelled from the spec: string2ll of util.c is not under src/; the
spec (section 7) only requires that a stored value that is not a valid
signed 64-bit decimal integer yields an invalid-numeric-argument
error.  Strict decimal parse: optional leading minus, at least one
digit, no other characters, result within the signed 64-bit range. -/
def string2ll (b : Bytes) : Option Int :=
  let digitsVal : List Nat → Option Int := fun ds =>
    if ds.isEmpty then none
    else if ds.any (fun d => decide (d < 48) || decide (57 < d)) then none
    else some (ds.foldl (fun acc d => acc * 10 + ((d : Int) - 48)) 0)
  match b with
  | 45 :: rest =>
      (digitsVal rest).bind
        (fun v => if -v < LLONG_MIN then none else some (-v))
  | _ =>
      (digitsVal b).bind
        (fun v => if v > LLONG_MAX then none else some v)

/-- getLongLongFromObject on the object found under the key: a missing
object reads as 0, an int-encoded object as its integer, a raw string
through string2ll.  (A non-string object never reaches this read in
incrDecrCommand: checkType rejects it first.) -/
def getLongLongFromObject : Option RObj → Option Int
  | none => some 0
  | some (.intEnc n) => some n
  | some (.str b) => string2ll b
  | some .nonString => none

/-- incrDecrCommand.  The overflow pre-check compares incr against the
headroom to LLONG_MIN / LLONG_MAX before the addition.  On success the
key ends bound to the integer result: the in-place
rcu_assign_pointer update and the createStringObjectFromLongLong +
dbOverwrite / dbAdd branches differ only in allocation, both leaving
an OBJ_ENCODING_INT object holding value (on LP64 every long long fits
the long-range test of line 464). -/
def incrDecrCommand (st : ServerState) (key : Bytes) (incr : Int) :
    Reply × ServerState :=
  let o := dbLookup st.db key
  if o.map RObj.isString = some false then (wrongtypeerr, st)
  else
    match getLongLongFromObject o with
    | none => (.err "value is not an integer or out of range", st)
    | some oldvalue =>
        if (incr < 0 ∧ oldvalue < 0 ∧ incr < LLONG_MIN - oldvalue) ∨
           (incr > 0 ∧ oldvalue > 0 ∧ incr > LLONG_MAX - oldvalue) then
          (.err "increment or decrement would overflow", st)
        else
          let value := oldvalue + incr
          (.int value,
           { st with
               db := dbSet st.db key (.intEnc value)
               dirty := st.dirty + 1
               notes := st.notes ++ [("incrby", key)] })

/-! ### MSET / MSETNX -/

/-- The key/value pairs of the argument vector (argv[1], argv[2]),
(argv[3], argv[4]), ... -/
def msetPairs : List Bytes → List (Bytes × Bytes)
  | k :: v :: rest => (k, v) :: msetPairs rest
  | _ => []

/-- msetGenericCommand on the argument vector after the command name
(argc = 1 + args.length).  With nx, busykeys counts the already-bound
target keys before any write; a nonzero count aborts the whole
command with the czero reply. -/
def msetGenericCommand (st : ServerState) (args : List Bytes) (nx : Bool) :
    Reply × ServerState :=
  if (1 + args.length) % 2 = 0 then
    (.err "wrong number of arguments for MSET", st)
  else
    let pairs := msetPairs args
    let busykeys := pairs.countP (fun p => (dbLookup st.db p.1).isSome)
    if nx ∧ busykeys ≠ 0 then (.int 0, st)
    else
      (if nx then Reply.int 1 else .status "OK",
       { st with
           db := pairs.foldl (fun d p => dbSet d p.1 (.str p.2)) st.db
           dirty := st.dirty + args.length / 2
           notes := st.notes ++ pairs.map (fun p => ("set", p.1)) })

/-- MSETNX. -/
def msetnxCommand (st : ServerState) (args : List Bytes) :
    Reply × ServerState :=
  msetGenericCommand st args true

/-! ### q_thread_start (src/q_thread.c) -/

/-- A q_thread descriptor.  fun_run and data are opaque: only whether
they are set matters to the launcher. -/
structure QThread : Type where
  id : Int
  thread_id : Nat
  fun_run : Option Nat
  data : Option Nat
  cpu_id : Int
deriving DecidableEq, Repr

/-- Outcome of q_thread_start: a dereference of a NULL descriptor, a
C_ERR return with no thread launched, or a successful pthread_create
(C_OK). -/
inductive StartOutcome : Type
  | memFault
  | errNoLaunch
  | launched
deriving DecidableEq, Repr

/-- q_thread_start.  The C body assigns thread->cpu_id = cpu_id on its
first statement, before the NULL test two lines later, so a NULL
descriptor is dereferenced: modelled as memFault.  A live descriptor
with fun_run unset returns C_ERR after cpu_id has already been
written; otherwise pthread_create launches the thread (thread_id
becomes a live handle, modelled as 1).  The second component is the
descriptor after the call. -/
def q_thread_start : Option QThread → Int → StartOutcome × Option QThread
  | none, _ => (.memFault, none)
  | some t, cpu =>
      let t1 := { t with cpu_id := cpu }
      if t1.fun_run.isNone then (.errNoLaunch, some t1)
      else (.launched, some { t1 with thread_id := 1 })

/-! ### Concrete states and claim-side specifications -/

/-- The empty server state. -/
def st0 : ServerState := ⟨[], [], 0, []⟩

/-- The bytes of "Hello World". -/
def hwBytes : Bytes := [72, 101, 108, 108, 111, 32, 87, 111, 114, 108, 100]

/-- A one-byte key named k. -/
def kHW : Bytes := [107]

/-- A state in which key kHW holds the raw string "Hello World". -/
def stHW : ServerState := ⟨[(kHW, .str hwBytes)], [], 0, []⟩

/-- A value one byte longer than the 512 MiB ceiling. -/
def bigValue : Bytes := List.replicate (512 * 1024 * 1024 + 1) 0

/-- A state holding a string key a and a non-string key b. -/
def stMix : ServerState := ⟨[([97], .str [49]), ([98], .nonString)], [], 0, []⟩

/-- The GETRANGE normalization exactly as the claim words it: a
negative index becomes len + index, an out-of-range start clamps up
to 0, an out-of-range end clamps down to len - 1, and the reply is
the bytes from start to end inclusive, empty when the normalized
start exceeds the normalized end or the string is empty. -/
def getrangeClaimSpec (s : Bytes) (start0 end0 : Int) : Bytes :=
  let len : Int := s.length
  let s1 := if start0 < 0 then len + start0 else start0
  let e1 := if end0 < 0 then len + end0 else end0
  let s2 := max s1 0
  let e2 := min e1 (len - 1)
  if s2 > e2 ∨ len = 0 then []
  else (s.drop s2.toNat).take (e2 - s2 + 1).toNat

/-- The amended GETRANGE normalization: as the claim, plus the two
rules the code also applies: when both arguments are negative with
start greater than end the reply is empty at once, and a normalized
end below 0 is clamped up to 0 before the len - 1 clamp. -/
def getrangeAmendedSpec (s : Bytes) (start0 end0 : Int) : Bytes :=
  let len : Int := s.length
  if start0 < 0 ∧ end0 < 0 ∧ start0 > end0 then []
  else
    let s2 := max (if start0 < 0 then len + start0 else start0) 0
    let e2 :=
      min (max (if end0 < 0 then len + end0 else end0) 0) (len - 1)
    if s2 > e2 ∨ s.length = 0 then []
    else (s.drop s2.toNat).take (e2 - s2 + 1).toNat

end MtRedis

namespace MtRedis

/-! ### Lookup / update lemmas for the keyspace -/

theorem dbLookup_nil (k : Bytes) : dbLookup [] k = none := rfl

theorem dbLookup_dbSet_self (db : DB) (k : Bytes) (v : RObj) :
    dbLookup (dbSet db k v) k = some v := by
  induction db with
  | nil => simp [dbSet, dbLookup, List.find?]
  | cons p rest ih =>
    obtain ⟨k0, v0⟩ := p
    by_cases h : k0 = k
    · subst h
      simp [dbSet, dbLookup, List.find?]
    · simp only [dbSet, if_neg h]
      simpa [dbLookup, List.find?, h] using ih

theorem dbLookup_dbSet_ne (db : DB) (k k1 : Bytes) (v : RObj) (h : k1 ≠ k) :
    dbLookup (dbSet db k v) k1 = dbLookup db k1 := by
  have hks : k ≠ k1 := fun hh => h hh.symm
  induction db with
  | nil => simp [dbSet, dbLookup, List.find?, hks]
  | cons p rest ih =>
    obtain ⟨k0, v0⟩ := p
    by_cases h0 : k0 = k
    · subst h0
      simp [dbSet, dbLookup, List.find?, hks]
    · by_cases h1 : k0 = k1
      · subst h1
        simp [dbSet, h0, dbLookup, List.find?]
      · simp only [dbSet, if_neg h0]
        simp only [dbLookup, List.find?] at ih ⊢
        simp [h1, ih]

theorem dbLookup_msetFoldl_not_mem (pairs : List (Bytes × Bytes)) (db : DB)
    (k : Bytes) (hk : ∀ p ∈ pairs, p.1 ≠ k) :
    dbLookup (pairs.foldl (fun d p => dbSet d p.1 (.str p.2)) db) k =
      dbLookup db k := by
  induction pairs generalizing db with
  | nil => rfl
  | cons p tl ih =>
    simp only [List.foldl_cons]
    rw [ih _ (fun q hq => hk q (List.mem_cons_of_mem _ hq))]
    exact dbLookup_dbSet_ne db p.1 k (.str p.2)
      (fun hh => hk p (List.mem_cons_self _ _) hh.symm)

theorem dbLookup_msetFoldl_mem (pairs : List (Bytes × Bytes)) (db : DB)
    (hnd : (pairs.map Prod.fst).Nodup) (p : Bytes × Bytes) (hp : p ∈ pairs) :
    dbLookup (pairs.foldl (fun d q => dbSet d q.1 (.str q.2)) db) p.1 =
      some (.str p.2) := by
  induction pairs generalizing db with
  | nil => cases hp
  | cons q tl ih =>
    simp only [List.map_cons, List.nodup_cons] at hnd
    simp only [List.foldl_cons]
    rcases List.mem_cons.mp hp with h | h
    · subst h
      rw [dbLookup_msetFoldl_not_mem tl _ p.1
          (fun r hr hh => hnd.1 (hh ▸ List.mem_map_of_mem Prod.fst hr)),
        dbLookup_dbSet_self]
    · exact ih _ hnd.2 h

/-! ### The GETRANGE clamp arithmetic -/

theorem clampStart_eq (x : Int) : (if x < 0 then (0 : Int) else x) = max x 0 := by
  split <;> omega

theorem clampEnd_eq (len x : Int) :
    (if (if x < 0 then (0 : Int) else x) ≥ len then len - 1
     else if x < 0 then (0 : Int) else x) = min (max x 0) (len - 1) := by
  by_cases h : x < 0 <;> simp only [h, if_pos, if_neg, if_true, if_false] <;>
    split <;> omega

theorem getrangeBytes_eq_amended (s : Bytes) (start0 end0 : Int) :
    getrangeBytes s start0 end0 = getrangeAmendedSpec s start0 end0 := by
  simp only [getrangeBytes, getrangeAmendedSpec]
  by_cases h0 : start0 < 0 ∧ end0 < 0 ∧ start0 > end0
  · simp [h0]
  · simp only [if_neg h0]
    rw [clampStart_eq, clampEnd_eq]

/-! ### Claim theorems -/

/-- C10: a SET / SETEX / PSETEX invocation whose expire argument
parses to an integer less than or equal to zero replies the invalid
expire time error and performs no mutation at all: the returned state
is the input state (no key written, no expiration set, dirty counter
and notification stream untouched). -/
theorem setGeneric_nonpositive_expire_no_mutation
    (st : ServerState) (nx xx : Bool) (key : Bytes) (val : RObj)
    (ms : Int) (unitSeconds : Bool) (okReply abortReply : Option Reply)
    (cmdName : String) (now : Int) (h : ms ≤ 0) :
    setGenericCommand st nx xx key val (some ms) unitSeconds okReply
        abortReply cmdName now =
      (.err ("invalid expire time in " ++ cmdName), st) := by
  simp [setGenericCommand, h]

/-- Witness for C10 at a concrete input: SET k v EX 0 on the empty
state errors and leaves the state empty. -/
theorem setGeneric_nonpositive_expire_no_mutation_witness :
    setGenericCommand st0 false false [107] (.str [118]) (some 0) true
        none none "set" 0 =
      (.err ("invalid expire time in " ++ "set"), st0) :=
  setGeneric_nonpositive_expire_no_mutation st0 false false [107]
    (.str [118]) 0 true none none "set" 0 (by decide)

/-- C8: SET k v followed by GET k replies exactly v, for every byte
string v (empty and binary content included) within the 512 MiB
ceiling. -/
theorem set_get_roundtrip (st : ServerState) (k v : Bytes)
    (h : (v.length : Int) ≤ maxStringSize) :
    (setCommand st k v).1 = .status "OK" ∧
    getGenericCommand (setCommand st k v).2 k = .bulk v := by
  constructor
  · simp [setCommand, setGenericCommand, setGenericFinish]
  · simp [setCommand, setGenericCommand, setGenericFinish,
      getGenericCommand, dbLookup_dbSet_self, RObj.isString, addReplyBulkObj]

/-- Witness for C8 at a concrete input: the empty value on the empty
state round-trips. -/
theorem set_get_roundtrip_witness :
    (setCommand st0 [107] []).1 = .status "OK" ∧
    getGenericCommand (setCommand st0 [107] []).2 [107] = .bulk [] :=
  set_get_roundtrip st0 [107] [] (by decide)

/-- C7 (code bug): q_thread_start dereferences a NULL descriptor
(the cpu_id store on its first statement precedes the NULL test), so
the call with a null descriptor is a memory fault, not the C_ERR
return the claim describes; the unset-fun_run half of the claim does
hold: a live descriptor with no entry function gets C_ERR and no
thread is launched. -/
theorem q_thread_start_null_deref :
    q_thread_start none 0 = (.memFault, none) ∧
    q_thread_start (some ⟨0, 0, none, none, 0⟩) 5 =
      (.errNoLaunch, some ⟨0, 0, none, none, 5⟩) ∧
    StartOutcome.memFault ≠ .errNoLaunch := by
  decide

/-- C1 counterexample: APPEND of the zero-length value on a missing
key does not leave the keyspace unchanged: it creates the key, bound
to the empty string (dbAdd runs unconditionally in the o == NULL
branch of appendCommand). -/
theorem append_empty_missing_creates_key :
    (appendCommand st0 [107] []).2 ≠ st0 ∧
    dbLookup (appendCommand st0 [107] []).2.db [107] = some (.str []) := by
  decide

/-- C1 (amended): SETRANGE with a zero-length value and a
non-negative offset on a missing key replies 0 and leaves the state
completely unchanged; APPEND with a zero-length value on a missing
key also replies 0, but creates the key, bound to the empty string. -/
theorem setrange_append_empty_value_missing_key
    (st : ServerState) (k : Bytes) (off : Int)
    (hoff : 0 ≤ off) (hk : dbLookup st.db k = none) :
    setrangeCommand st k off [] = (.int 0, st) ∧
    (appendCommand st k []).1 = .int 0 ∧
    (appendCommand st k []).2.db = dbSet st.db k (.str []) := by
  have hoff2 : ¬ off < 0 := not_lt.mpr hoff
  refine ⟨?_, ?_, ?_⟩
  · simp [setrangeCommand, hoff2, hk]
  · simp [appendCommand, hk]
  · simp [appendCommand, hk]

/-- Witness for the amended C1 at a concrete input. -/
theorem setrange_append_empty_value_missing_key_witness :
    setrangeCommand st0 [107] 0 [] = (.int 0, st0) ∧
    (appendCommand st0 [107] []).1 = .int 0 ∧
    (appendCommand st0 [107] []).2.db = dbSet st0.db [107] (.str []) :=
  setrange_append_empty_value_missing_key st0 [107] 0 (by decide) (by decide)

/-- The length of bigValue, computed without materializing it. -/
theorem bigValue_length : bigValue.length = 512 * 1024 * 1024 + 1 := by
  unfold bigValue
  exact List.length_replicate _ _

/-- C6 counterexample: APPEND on a missing key performs no length
check at all: a value one byte past the 512 MiB ceiling is stored
as-is and the reply is its length, not the length-limit error. -/
theorem append_missing_key_skips_length_check :
    (appendCommand st0 [97] bigValue).1 = .int (512 * 1024 * 1024 + 1) ∧
    (appendCommand st0 [97] bigValue).1 ≠ stringTooLongErr ∧
    dbLookup (appendCommand st0 [97] bigValue).2.db [97] =
      some (.str bigValue) := by
  have h : dbLookup st0.db [97] = none := rfl
  refine ⟨?_, ?_, ?_⟩
  · simp only [appendCommand, h]
    rw [bigValue_length]
    norm_cast
  · simp only [appendCommand, h]
    simp [stringTooLongErr]
  · simp only [appendCommand, h]
    exact dbLookup_dbSet_self _ _ _

/-- C2 counterexample: on "Hello World", GETRANGE 0 -12 replies the
one-byte string "H", while the normalization exactly as the claim
words it (negative indexes become len + index, start clamps up to 0,
end clamps down to len - 1, start > end means empty) predicts the
empty string: the code additionally clamps a negative normalized end
up to 0. -/
theorem getrange_claim_normalization_gap :
    getrangeCommand stHW kHW 0 (-12) = .bulk [72] ∧
    getrangeClaimSpec hwBytes 0 (-12) = [] ∧
    getrangeCommand stHW kHW 0 (-12) ≠
      .bulk (getrangeClaimSpec hwBytes 0 (-12)) := by
  decide

/-- C2 (amended): for every stored raw string value, GETRANGE replies
a bulk string and never an error: when both arguments are negative
with start greater than end the reply is empty at once; otherwise a
negative index is normalized to len + index, a still-negative start
or end is clamped up to 0, an end at or past len is clamped down to
len - 1, and the reply is the bytes from start to end inclusive,
empty when the normalized start exceeds the normalized end or the
string is empty.  The three boundary examples of the claim hold. -/
theorem getrange_normalization (st : ServerState) (k s : Bytes)
    (start0 end0 : Int) (h : dbLookup st.db k = some (.str s)) :
    getrangeCommand st k start0 end0 =
      .bulk (getrangeAmendedSpec s start0 end0) ∧
    getrangeCommand stHW kHW (-3) (-1) = .bulk [114, 108, 100] ∧
    getrangeCommand stHW kHW 0 (-1) = .bulk hwBytes ∧
    getrangeCommand stHW kHW 5 2 = .bulk [] := by
  refine ⟨?_, by decide, by decide, by decide⟩
  simp [getrangeCommand, h, RObj.isString, robjBytes,
    getrangeBytes_eq_amended]

/-- Witness for the amended C2 at a concrete input. -/
theorem getrange_normalization_witness :
    getrangeCommand stHW kHW (-3) (-1) =
      .bulk (getrangeAmendedSpec hwBytes (-3) (-1)) :=
  (getrange_normalization stHW kHW hwBytes (-3) (-1) (by decide)).1

/-- C3: INCR/DECR overflow handling.  With a key holding integer v
and any increment, both within the signed 64-bit range, the pre-check
of incrDecrCommand errors exactly when v + incr leaves the signed
64-bit range, leaving the key untouched; otherwise the key ends
holding v + incr.  In particular INCRBY k LLONG_MAX on a fresh key
then INCRBY k 1 errors with overflow and leaves k at LLONG_MAX. -/
theorem incrDecr_overflow_precheck (st : ServerState) (k : Bytes)
    (v incr : Int) (hv : dbLookup st.db k = some (.intEnc v))
    (hv1 : LLONG_MIN ≤ v) (hv2 : v ≤ LLONG_MAX)
    (hi1 : LLONG_MIN ≤ incr) (hi2 : incr ≤ LLONG_MAX) :
    ((v + incr < LLONG_MIN ∨ LLONG_MAX < v + incr) →
      incrDecrCommand st k incr =
        (.err "increment or decrement would overflow", st)) ∧
    ((LLONG_MIN ≤ v + incr ∧ v + incr ≤ LLONG_MAX) →
      (incrDecrCommand st k incr).1 = .int (v + incr) ∧
      dbLookup (incrDecrCommand st k incr).2.db k =
        some (.intEnc (v + incr))) ∧
    (incrDecrCommand (incrDecrCommand st0 [107] LLONG_MAX).2 [107] 1).1 =
      .err "increment or decrement would overflow" ∧
    dbLookup (incrDecrCommand
        (incrDecrCommand st0 [107] LLONG_MAX).2 [107] 1).2.db [107] =
      some (.intEnc LLONG_MAX) := by
  have hmax : LLONG_MAX = 9223372036854775807 := by norm_num [LLONG_MAX]
  have hmin : LLONG_MIN = -9223372036854775808 := by norm_num [LLONG_MIN]
  refine ⟨?_, ?_, by decide, by decide⟩
  · intro hov
    have hc : (incr < 0 ∧ v < 0 ∧ incr < LLONG_MIN - v) ∨
        (incr > 0 ∧ v > 0 ∧ incr > LLONG_MAX - v) := by omega
    simp [incrDecrCommand, hv, RObj.isString, getLongLongFromObject, hc]
  · intro hok
    have hc : ¬ ((incr < 0 ∧ v < 0 ∧ incr < LLONG_MIN - v) ∨
        (incr > 0 ∧ v > 0 ∧ incr > LLONG_MAX - v)) := by omega
    simp [incrDecrCommand, hv, RObj.isString, getLongLongFromObject, hc,
      dbLookup_dbSet_self]

/-- Witness for C3 at a concrete input: INCRBY of 3 on a key holding
5 replies 8 and stores 8. -/
theorem incrDecr_overflow_precheck_witness :
    (incrDecrCommand ⟨[([107], .intEnc 5)], [], 0, []⟩ [107] 3).1 =
      .int (5 + 3) ∧
    dbLookup (incrDecrCommand
        ⟨[([107], .intEnc 5)], [], 0, []⟩ [107] 3).2.db [107] =
      some (.intEnc (5 + 3)) :=
  (incrDecr_overflow_precheck ⟨[([107], .intEnc 5)], [], 0, []⟩ [107] 5 3
      (by decide) (by decide) (by decide) (by decide) (by decide)).2.1
    (by decide)

/-- C9: GET on a missing key replies the null marker; GET on a
non-string object replies the wrong-type error; MGET never fails as a
whole: it replies one element per requested key, substituting the
null marker where that key is missing or non-string and otherwise
exactly the bulk value GET would reply. -/
theorem get_mget_reply_semantics (st : ServerState) (k : Bytes)
    (keys : List Bytes) :
    (dbLookup st.db k = none → getGenericCommand st k = .nil) ∧
    (∀ o, dbLookup st.db k = some o → o.isString = false →
      getGenericCommand st k = wrongtypeerr) ∧
    (mgetCommand st keys).length = keys.length ∧
    mgetCommand st keys = keys.map (fun k1 =>
      match getGenericCommand st k1 with
      | .bulk b => .bulk b
      | _ => .nil) := by
  refine ⟨?_, ?_, ?_, ?_⟩
  · intro h
    simp [getGenericCommand, h]
  · intro o ho hs
    simp [getGenericCommand, ho, hs]
  · simp [mgetCommand]
  · simp only [mgetCommand]
    refine List.map_congr_left (fun a ha => ?_)
    cases ho : dbLookup st.db a with
    | none => simp [getGenericCommand, ho]
    | some o =>
      cases o <;>
        simp [getGenericCommand, ho, RObj.isString, addReplyBulkObj,
          wrongtypeerr]

/-- Witness for C9 at a concrete input: a state with a string key, a
non-string key and a missing key. -/
theorem get_mget_reply_semantics_witness :
    getGenericCommand stMix [99] = .nil ∧
    getGenericCommand stMix [98] = wrongtypeerr ∧
    mgetCommand stMix [[97], [98], [99]] =
      [[97], [98], [99]].map (fun k1 =>
        match getGenericCommand stMix k1 with
        | .bulk b => .bulk b
        | _ => .nil) :=
  ⟨(get_mget_reply_semantics stMix [99] []).1 (by decide),
   (get_mget_reply_semantics stMix [98] []).2.1 .nonString (by decide)
     (by decide),
   (get_mget_reply_semantics stMix [99] [[97], [98], [99]]).2.2.2⟩

/-- C4: MSETNX is all-or-nothing.  With a well-formed argument vector
(an even number of strings after the command name): if some target
key already exists the reply is 0 and the whole state is unchanged;
if none exists the reply is 1, keys outside the pair list keep their
prior binding, and (for distinct target keys) every pair is written. -/
theorem msetnx_all_or_nothing (st : ServerState) (args : List Bytes)
    (hargc : args.length % 2 = 0) :
    ((∃ p ∈ msetPairs args, (dbLookup st.db p.1).isSome) →
      msetnxCommand st args = (.int 0, st)) ∧
    ((∀ p ∈ msetPairs args, dbLookup st.db p.1 = none) →
      (msetnxCommand st args).1 = .int 1 ∧
      (∀ k1, (∀ p ∈ msetPairs args, p.1 ≠ k1) →
        dbLookup (msetnxCommand st args).2.db k1 = dbLookup st.db k1) ∧
      (((msetPairs args).map Prod.fst).Nodup →
        ∀ p ∈ msetPairs args,
          dbLookup (msetnxCommand st args).2.db p.1 = some (.str p.2))) := by
  have hvalid : ¬ (1 + args.length) % 2 = 0 := by omega
  constructor
  · rintro ⟨p, hp, hsome⟩
    have hbusy : (msetPairs args).countP
        (fun q => (dbLookup st.db q.1).isSome) ≠ 0 := by
      have := (List.countP_pos_iff
          (p := fun q => (dbLookup st.db q.1).isSome)).mpr ⟨p, hp, hsome⟩
      omega
    simp [msetnxCommand, msetGenericCommand, hvalid, hbusy]
  · intro hnone
    have hbusy : (msetPairs args).countP
        (fun q => (dbLookup st.db q.1).isSome) = 0 :=
      List.countP_eq_zero.mpr (fun q hq => by simp [hnone q hq])
    refine ⟨?_, ?_, ?_⟩
    · simp [msetnxCommand, msetGenericCommand, hvalid, hbusy]
    · intro k1 hk1
      simp only [msetnxCommand, msetGenericCommand, if_neg hvalid]
      simp [hbusy, dbLookup_msetFoldl_not_mem _ _ _ hk1]
    · intro hnd p hp
      simp only [msetnxCommand, msetGenericCommand, if_neg hvalid]
      simp [hbusy, dbLookup_msetFoldl_mem _ _ hnd p hp]

/-- Witness for C4 at the concrete scenario of the spec: MSETNX a 1
b 2 on the empty state succeeds; a following MSETNX a 9 c 3 fails and
changes nothing. -/
theorem msetnx_all_or_nothing_witness :
    (msetnxCommand st0 [[97], [49], [98], [50]]).1 = .int 1 ∧
    msetnxCommand (msetnxCommand st0 [[97], [49], [98], [50]]).2
        [[97], [57], [99], [51]] =
      (.int 0, (msetnxCommand st0 [[97], [49], [98], [50]]).2) :=
  ⟨((msetnx_all_or_nothing st0 [[97], [49], [98], [50]]
      (by decide)).2 (by decide)).1,
   (msetnx_all_or_nothing (msetnxCommand st0 [[97], [49], [98], [50]]).2
      [[97], [57], [99], [51]] (by decide)).1 (by decide)⟩

/-- C6 (amended): the 512 MiB ceiling is enforced, with error and no
mutation, by SETRANGE on both the missing-key and existing-key paths
(for a non-empty value: with an empty value the resulting length is
unchanged) and by APPEND on an existing string key; APPEND creating a
missing key performs no length check and stores the value as-is. -/
theorem string_size_ceiling (st : ServerState) (k : Bytes) (off : Int)
    (v : Bytes) (hoff : 0 ≤ off) :
    (dbLookup st.db k = none → v ≠ [] →
      maxStringSize < off + v.length →
      setrangeCommand st k off v = (stringTooLongErr, st)) ∧
    (∀ o, dbLookup st.db k = some o → o.isString →
      v ≠ [] → maxStringSize < off + v.length →
      setrangeCommand st k off v = (stringTooLongErr, st)) ∧
    (∀ o, dbLookup st.db k = some o → o.isString →
      maxStringSize < (stringObjectLen o : Int) + v.length →
      appendCommand st k v = (stringTooLongErr, st)) ∧
    (dbLookup st.db k = none →
      appendCommand st k v =
        (.int v.length,
          { st with
              db := dbSet st.db k (.str v)
              dirty := st.dirty + 1
              notes := st.notes ++ [("append", k)] })) := by
  have hoff2 : ¬ off < 0 := not_lt.mpr hoff
  refine ⟨?_, ?_, ?_, ?_⟩
  · intro h hv hlen
    simp [setrangeCommand, hoff2, h, checkStringLength, hv, hlen,
      List.length_eq_zero]
  · intro o ho hs hv hlen
    simp [setrangeCommand, hoff2, ho, hs, checkStringLength, hv, hlen,
      List.length_eq_zero]
  · intro o ho hs hlen
    simp [appendCommand, ho, hs, checkStringLength, hlen]
  · intro h
    simp [appendCommand, h]

/-- Witness for the amended C6 at concrete inputs: SETRANGE at offset
512 MiB with a one-byte value errors without mutation; APPEND of a
one-byte value on a missing key stores it unchecked. -/
theorem string_size_ceiling_witness :
    setrangeCommand st0 [97] (512 * 1024 * 1024) [48] =
      (stringTooLongErr, st0) ∧
    appendCommand st0 [97] [48] =
      (.int 1,
        { st0 with
            db := dbSet st0.db [97] (.str [48])
            dirty := st0.dirty + 1
            notes := st0.notes ++ [("append", [97])] }) :=
  ⟨(string_size_ceiling st0 [97] (512 * 1024 * 1024) [48]
      (by decide)).1 (by decide) (by decide) (by decide),
   (string_size_ceiling st0 [97] 0 [48] (by decide)).2.2.2 (by decide)⟩

end MtRedis
